import Mathlib

/-!
# Verification of the SDRAPP delivery pipeline

A shallow embedding, in Lean 4, of the core components of the SDRAPP
repository (`src/hardware/src`):

* the shared-memory FFT ring buffer (`shared_fft_buffer.hpp`):
  `SharedFFTProducer::publish_multi`, `SharedFFTConsumer` construction
  (`open_consumer`) and `SharedFFTConsumer::try_read`;
* the control-socket command handler of `sdr_streamer.cpp`
  (`control_socket_thread`, command dispatch switch);
* the asynchronous block writer of `iq_recorder.cpp`
  (`AsyncFileWriter::write`, `AsyncFileWriter::writer_loop` drain);
* the window/FFT power-spectrum computation of `freq_scanner.cpp`
  (`compute_power_spectrum`, `window_coherent_gain`) and the per-channel
  FFT loop of `sdr_streamer.cpp`.

Machine `double`/`float` values are modelled as exact rationals, `uint64`
counters as `Nat`, byte buffers as Lean lists.  The FFT itself is an
external library call (FFTW) and is therefore a parameter of the embedded
engine functions, exactly as the C code receives a pre-built plan.
`log10` is likewise a float-library call and is passed as a parameter
`L : ℚ → ℚ`.  Sequentially-consistent state passing stands in for the
acquire/release atomics; the one deliberately racy read (`try_read`
racing `publish`) is modelled by letting the consumer observe the
producer's counter and the slot array at two different instants.
-/

namespace Sdr

/-! ## Shared-memory ring buffer: data model (shared_fft_buffer.hpp) -/

/-- `SHM_MAGIC = 0x53445246` ("SDRF"), shared_fft_buffer.hpp line 41. -/
def SHM_MAGIC : ℕ := 0x53445246

/-- `SHM_VERSION = 1`, shared_fft_buffer.hpp line 42. -/
def SHM_VERSION : ℕ := 1

/-- `DEFAULT_RING_SIZE = 64`, shared_fft_buffer.hpp line 43. -/
def DEFAULT_RING_SIZE : ℕ := 64

/-- `MAX_CHANNELS = 2`, shared_fft_buffer.hpp line 45. -/
def MAX_CHANNELS : ℕ := 2

/-- `FFTFrameHeader` (shared_fft_buffer.hpp lines 87-97): per-frame header
stored at the start of each ring slot.  `peak_bin` and `peak_power` are the
two fixed `MAX_CHANNELS`-element arrays of the struct, modelled as lists. -/
structure FFTFrameHeader where
  frame_number : ℕ
  timestamp : ℚ
  center_freq : ℚ
  fft_size : ℕ
  channel_mask : ℕ
  flags : ℕ
  peak_bin : List ℤ
  peak_power : List ℚ
  deriving Repr, DecidableEq

/-- One ring slot: the `FFTFrameHeader` followed by the payload
`float spectrum[channel_count][fft_size]`, modelled as a flat list of
`fft_size * channel_count` rationals. -/
structure Slot where
  hdr : FFTFrameHeader
  payload : List ℚ
  deriving Repr, DecidableEq

/-- `SharedFFTHeader` (shared_fft_buffer.hpp lines 57-79): the 64-byte
header at the start of the mapped region.  `gps_locked` and `streaming`
are `uint8` flags, kept as naturals. -/
structure SharedFFTHeader where
  magic : ℕ
  version : ℕ
  ring_size : ℕ
  fft_size : ℕ
  channel_count : ℕ
  frame_size : ℕ
  write_idx : ℕ
  read_idx : ℕ
  sample_rate : ℚ
  gps_locked : ℕ
  streaming : ℕ
  deriving Repr, DecidableEq

/-- The whole mapped shared-memory region: the header followed by
`ring_size` frame slots. -/
structure SharedRegion where
  header : SharedFFTHeader
  slots : List Slot
  deriving Repr, DecidableEq

/-- Size of the packed `FFTFrameHeader` struct in bytes.  The source's
`static_assert` admits 44-52 depending on platform; the concrete value only
feeds the `frame_size` bookkeeping field and no indexing in this model. -/
def FFT_FRAME_HEADER_SIZE : ℕ := 48

/-- Producer-side state: the `SharedFFTProducer` members (`ring_size_`,
`fft_size_`, `channel_count_`, `frame_data_size_`, `frame_size_`,
shared_fft_buffer.hpp lines 254-259) plus the mapped region it owns. -/
structure ProducerState where
  ring_size_ : ℕ
  fft_size_ : ℕ
  channel_count_ : ℕ
  frame_data_size_ : ℕ
  frame_size_ : ℕ
  region : SharedRegion
  deriving Repr, DecidableEq

/-- A slot as it sits in freshly `ftruncate`d (hence zero-filled) shared
memory, before the producer ever writes it. -/
def zeroSlot (fft_size channel_count : ℕ) : Slot :=
  { hdr := { frame_number := 0, timestamp := 0, center_freq := 0, fft_size := 0,
             channel_mask := 0, flags := 0,
             peak_bin := List.replicate MAX_CHANNELS 0,
             peak_power := List.replicate MAX_CHANNELS 0 }
    payload := List.replicate (fft_size * channel_count) 0 }

/-- `SharedFFTProducer::SharedFFTProducer` (shared_fft_buffer.hpp lines
110-166): computes the sizes, creates and zero-fills the region, and
initializes every header field, in particular `write_idx = 0` and
`streaming = 1`.  The `shm_open`/`ftruncate`/`mmap` failure paths are
OS-level and outside this model. -/
def mkProducer (ring_size fft_size channel_count : ℕ) : ProducerState :=
  let frame_data_size := fft_size * channel_count * 4
  let frame_size := FFT_FRAME_HEADER_SIZE + frame_data_size
  { ring_size_ := ring_size
    fft_size_ := fft_size
    channel_count_ := channel_count
    frame_data_size_ := frame_data_size
    frame_size_ := frame_size
    region :=
      { header := { magic := SHM_MAGIC, version := SHM_VERSION,
                    ring_size := ring_size, fft_size := fft_size,
                    channel_count := channel_count, frame_size := frame_size,
                    write_idx := 0, read_idx := 0,
                    sample_rate := 0, gps_locked := 0, streaming := 1 }
        slots := List.replicate ring_size (zeroSlot fft_size channel_count) } }

/-- `memcpy` into a list: overwrite `len` elements of `dst` starting at
`offset` with the first `len` elements of `src`. -/
def writeRegion (dst : List ℚ) (offset : ℕ) (src : List ℚ) (len : ℕ) : List ℚ :=
  dst.take offset ++ src.take len ++ dst.drop (offset + len)

/-- The per-channel copy loop of `publish_multi` (shared_fft_buffer.hpp
lines 223-230), restricted to the payload: for each channel
`ch < num_channels && ch < MAX_CHANNELS`, copy `fft_size` spectrum values
to offset `ch * fft_size_mem` (the stride uses the member `fft_size_`, the
copy length the call argument `fft_size`). -/
def copyChannels (fft_size_mem fft_size_arg : ℕ) (channels : List (List ℚ)) :
    ℕ → List ℚ → List ℚ
  | 0, payload => payload
  | ch + 1, payload =>
      writeRegion (copyChannels fft_size_mem fft_size_arg channels ch payload)
        (ch * fft_size_mem) (channels.getD ch []) fft_size_arg

/-- The prefix-update performed on the fixed-size `peak_bin`/`peak_power`
arrays: entries `ch < k` take the freshly supplied value, entries beyond
keep whatever the slot held from its previous use. -/
def keepOldTail {α : Type} (old new : List α) (k : ℕ) : List α :=
  new.take k ++ old.drop k

/-- The slot contents produced by one `publish_multi` call over the slot's
previous contents (shared_fft_buffer.hpp lines 214-230). -/
def filledSlot (old : Slot) (fft_size_mem : ℕ) (frame_num : ℕ)
    (timestamp center_freq : ℚ) (spectrum_channels : List (List ℚ))
    (num_channels fft_size : ℕ) (peak_bins : List ℤ) (peak_powers : List ℚ)
    (gps_locked : Bool) : Slot :=
  { hdr := { frame_number := frame_num
             timestamp := timestamp
             center_freq := center_freq
             fft_size := fft_size
             channel_mask := 2 ^ num_channels - 1
             flags := if gps_locked then 0x0001 else 0x0000
             peak_bin := keepOldTail old.hdr.peak_bin peak_bins (min num_channels MAX_CHANNELS)
             peak_power := keepOldTail old.hdr.peak_power peak_powers (min num_channels MAX_CHANNELS) }
    payload := copyChannels fft_size_mem fft_size spectrum_channels
      (min num_channels MAX_CHANNELS) old.payload }

/-- `SharedFFTProducer::publish_multi` (shared_fft_buffer.hpp lines
201-238): load `write_idx`, compute `slot = write_idx % ring_size_`, fill
that slot's header and payload, release fence (a no-op in this sequential
model), store `write_idx + 1`, then update the region header's
`gps_locked` byte. -/
def publish_multi (s : ProducerState) (frame_num : ℕ)
    (timestamp center_freq : ℚ) (spectrum_channels : List (List ℚ))
    (num_channels fft_size : ℕ) (peak_bins : List ℤ) (peak_powers : List ℚ)
    (gps_locked : Bool) : ProducerState :=
  let write_idx := s.region.header.write_idx
  let slot := write_idx % s.ring_size_
  let old := s.region.slots.getD slot (zeroSlot s.fft_size_ s.channel_count_)
  let newSlot := filledSlot old s.fft_size_ frame_num timestamp center_freq
    spectrum_channels num_channels fft_size peak_bins peak_powers gps_locked
  { s with region :=
      { header := { s.region.header with
                    write_idx := write_idx + 1
                    gps_locked := if gps_locked then 1 else 0 }
        slots := s.region.slots.set slot newSlot } }

/-- `SharedFFTProducer::publish` (shared_fft_buffer.hpp lines 189-195):
single-channel wrapper around `publish_multi`. -/
def publish (s : ProducerState) (frame_num : ℕ) (timestamp center_freq : ℚ)
    (spectrum : List ℚ) (fft_size : ℕ) (peak_bin : ℤ) (peak_power : ℚ)
    (gps_locked : Bool) : ProducerState :=
  publish_multi s frame_num timestamp center_freq [spectrum] 1 fft_size
    [peak_bin] [peak_power] gps_locked

/-- `SharedFFTProducer::set_sample_rate` (shared_fft_buffer.hpp lines
240-242). -/
def set_sample_rate (s : ProducerState) (rate : ℚ) : ProducerState :=
  { s with region := { s.region with
      header := { s.region.header with sample_rate := rate } } }

/-- The operations a live `SharedFFTProducer` exposes after construction. -/
inductive ProducerOp where
  | publishOp (frame_num : ℕ) (timestamp center_freq : ℚ)
      (spectrum_channels : List (List ℚ)) (num_channels fft_size : ℕ)
      (peak_bins : List ℤ) (peak_powers : List ℚ) (gps_locked : Bool)
  | setSampleRateOp (rate : ℚ)

/-- Apply one producer operation. -/
def applyOp (s : ProducerState) : ProducerOp → ProducerState
  | .publishOp n t c sp nc fs pb pp g => publish_multi s n t c sp nc fs pb pp g
  | .setSampleRateOp r => set_sample_rate s r

/-- Apply a sequence of producer operations, oldest first. -/
def applyOps (s : ProducerState) : List ProducerOp → ProducerState
  | [] => s
  | op :: rest => applyOps (applyOp s op) rest

/-- Number of `publish`/`publish_multi` calls in an operation sequence. -/
def publishCount : List ProducerOp → ℕ
  | [] => 0
  | .publishOp _ _ _ _ _ _ _ _ _ :: rest => publishCount rest + 1
  | .setSampleRateOp _ :: rest => publishCount rest

/-! ## Shared-memory ring buffer: consumer -/

/-- Consumer-side state: the `last_read_idx_` cursor
(shared_fft_buffer.hpp line 354). -/
structure ConsumerState where
  last_read_idx : ℕ
  deriving Repr, DecidableEq

/-- `SharedFFTConsumer::SharedFFTConsumer` (shared_fft_buffer.hpp lines
268-303): map the region read-only, check `header_->magic == SHM_MAGIC`
(and nothing else), then initialize the cursor from the producer's current
`write_idx` (acquire load).  The `shm_open`/`fstat`/`mmap` failure paths
are OS-level and outside this model. -/
def open_consumer (r : SharedRegion) : Except String ConsumerState :=
  if r.header.magic ≠ SHM_MAGIC then
    .error "Invalid shared memory magic"
  else
    .ok { last_read_idx := r.header.write_idx }

/-- The body of `SharedFFTConsumer::try_read` (shared_fft_buffer.hpp lines
318-336), with the one shared-memory load of `write_idx` (line 319) made
explicit as the argument `observed_write_idx`, and the slot array as seen
when the frame pointer is dereferenced passed as `slots`.  A call racing no
producer has `observed_write_idx` and `slots` taken from the same region
(`try_read` below); a call racing `publish_multi` observes the counter
before, and the slot contents after, the interleaved publishes.  Returns
the frame read (if any) and the new cursor. -/
def tryReadFrom (observed_write_idx ring_size : ℕ) (slots : List Slot)
    (cursor : ℕ) : Option Slot × ℕ :=
  if cursor ≥ observed_write_idx then
    (none, cursor)
  else
    let cursor1 := if observed_write_idx - cursor > ring_size
      then observed_write_idx - 1 else cursor
    let slot := cursor1 % ring_size
    (slots[slot]?, cursor1 + 1)

/-- `SharedFFTConsumer::try_read` against a quiescent region: the counter
and the slot contents come from one and the same region state. -/
def try_read (r : SharedRegion) (cursor : ℕ) : Option Slot × ℕ :=
  tryReadFrom r.header.write_idx r.header.ring_size r.slots cursor

/-! ## Control-plane server (sdr_streamer.cpp)

The B210 hardware limit constants (lines 64-71), the wire structures
`ControlCommand`/`ControlResponse` (lines 115-134), and the per-command
dispatch switch of `control_socket_thread` (lines 221-306).  The USRP
handle is modelled as a record of the radio parameters the handler touches;
`set_rx_freq` followed by `get_rx_freq` is modelled as storing and
re-reading the requested value (the coercion a real front end may apply is
outside the repository).  The fixed 64-byte `snprintf` messages are
modelled as an inductive type carrying exactly the data interpolated into
the format string. -/

/-- `B210_MIN_FREQ = 50e6` (sdr_streamer.cpp line 64). -/
def B210_MIN_FREQ : ℚ := 50000000

/-- `B210_MAX_FREQ = 6000e6` (sdr_streamer.cpp line 65). -/
def B210_MAX_FREQ : ℚ := 6000000000

/-- `B210_MIN_RX_GAIN = 0.0` (sdr_streamer.cpp line 66). -/
def B210_MIN_RX_GAIN : ℚ := 0

/-- `B210_MAX_RX_GAIN = 76.0` (sdr_streamer.cpp line 67). -/
def B210_MAX_RX_GAIN : ℚ := 76

/-- `B210_MIN_BW = 200e3` (sdr_streamer.cpp line 70). -/
def B210_MIN_BW : ℚ := 200000

/-- `B210_MAX_BW = 56e6` (sdr_streamer.cpp line 71). -/
def B210_MAX_BW : ℚ := 56000000

/-- `ControlCommand::Type` (sdr_streamer.cpp lines 116-124): the seven
declared command codes of the 1-byte `type` field. -/
inductive CommandType where
  | SET_FREQUENCY
  | SET_SAMPLE_RATE
  | SET_GAIN
  | SET_BANDWIDTH
  | GET_STATUS
  | PING
  | STOP
  deriving Repr, DecidableEq

/-- `ControlCommand` (sdr_streamer.cpp lines 115-127): 1-byte type plus
8-byte double value. -/
structure ControlCommand where
  type : CommandType
  value : ℚ
  deriving Repr, DecidableEq

/-- The `snprintf`ed text of `resp.message`, one constructor per format
string appearing in `control_socket_thread`, carrying the interpolated
values. -/
inductive Msg where
  | freqSet (mhz_value : ℚ)
  | freqOutOfRange (lo hi : ℚ)
  | gainSet (db_value : ℚ)
  | gainOutOfRange (lo hi : ℚ)
  | bwSet (mhz_value : ℚ)
  | bwOutOfRange
  | statusMsg (freq gain : ℚ) (gps : Bool)
  | pong
  | stopping
  | unknownCommand
  deriving Repr, DecidableEq

/-- `ControlResponse` (sdr_streamer.cpp lines 130-134): `uint8 success`,
`double actual_value`, 64-byte message. -/
structure ControlResponse where
  success : Bool
  actual_value : ℚ
  message : Msg
  deriving Repr, DecidableEq

/-- The radio parameters the control handler reads or writes through the
USRP handle (an external collaborator; a set stores the requested value and
the matching get reads it back). -/
structure HardwareState where
  rx_freq : ℚ
  rx_gain : ℚ
  rx_bandwidth : ℚ
  rx_rate : ℚ
  deriving Repr, DecidableEq

/-- The process-wide atomics of sdr_streamer.cpp lines 50-54. -/
structure AtomicState where
  stop_signal_called : Bool
  current_frequency : ℚ
  current_gain : ℚ
  current_sample_rate : ℚ
  gps_locked : Bool
  deriving Repr, DecidableEq

/-- One round of the command switch in `control_socket_thread`
(sdr_streamer.cpp lines 225-303): `resp` is zero-initialized and
`resp.success = 1` is set before dispatch; each case either applies a
validated parameter change or overwrites `success` with 0.  The `switch`
has cases for `SET_FREQUENCY`, `SET_GAIN`, `SET_BANDWIDTH`, `GET_STATUS`,
`PING` and `STOP` only; a received `SET_SAMPLE_RATE` (type byte 2) falls
through to the `default:` arm, which answers "Unknown command". -/
def handle_command (cmd : ControlCommand) (hw : HardwareState)
    (a : AtomicState) : ControlResponse × HardwareState × AtomicState :=
  match cmd.type with
  | .SET_FREQUENCY =>
      if B210_MIN_FREQ ≤ cmd.value ∧ cmd.value ≤ B210_MAX_FREQ then
        let hw1 := { hw with rx_freq := cmd.value }
        let actual := hw1.rx_freq
        (⟨true, actual, .freqSet actual⟩,
         hw1, { a with current_frequency := actual })
      else
        (⟨false, 0, .freqOutOfRange B210_MIN_FREQ B210_MAX_FREQ⟩, hw, a)
  | .SET_GAIN =>
      if B210_MIN_RX_GAIN ≤ cmd.value ∧ cmd.value ≤ B210_MAX_RX_GAIN then
        let hw1 := { hw with rx_gain := cmd.value }
        let actual := hw1.rx_gain
        (⟨true, actual, .gainSet actual⟩,
         hw1, { a with current_gain := actual })
      else
        (⟨false, 0, .gainOutOfRange B210_MIN_RX_GAIN B210_MAX_RX_GAIN⟩, hw, a)
  | .SET_BANDWIDTH =>
      if B210_MIN_BW ≤ cmd.value ∧ cmd.value ≤ B210_MAX_BW then
        let hw1 := { hw with rx_bandwidth := cmd.value }
        let actual := hw1.rx_bandwidth
        (⟨true, actual, .bwSet actual⟩, hw1, a)
      else
        (⟨false, 0, .bwOutOfRange⟩, hw, a)
  | .GET_STATUS =>
      (⟨true, a.current_frequency,
        .statusMsg a.current_frequency a.current_gain a.gps_locked⟩, hw, a)
  | .PING =>
      (⟨true, 0, .pong⟩, hw, a)
  | .STOP =>
      (⟨true, 0, .stopping⟩, hw, { a with stop_signal_called := true })
  | .SET_SAMPLE_RATE =>
      -- no `case ControlCommand::SET_SAMPLE_RATE:` exists in the switch;
      -- the command falls through to `default:` (lines 295-297)
      (⟨false, 0, .unknownCommand⟩, hw, a)

/-! ## Async block writer (iq_recorder.cpp, class AsyncFileWriter)

One I/Q sample (`std::complex<float>`) is a pair of rationals.  A `Block`
is its valid prefix `data[0..count)`; the dead contents of blocks sitting
in the free pool are never read (they are fully overwritten before reuse),
so the free pool is modelled by its size. -/

/-- One complex float32 I/Q sample. -/
abbrev Sample := ℚ × ℚ

/-- `AsyncFileWriter::BLOCK_SIZE = 65536` (iq_recorder.cpp line 54). -/
def BLOCK_SIZE : ℕ := 65536

/-- `AsyncFileWriter::MAX_QUEUE_SIZE = 64` (iq_recorder.cpp line 55). -/
def MAX_QUEUE_SIZE : ℕ := 64

/-- The observable state of an `AsyncFileWriter`: the `running_`,
`total_written_`, `dropped_blocks_` atomics, the free pool (by size), the
pending-write queue (each entry the valid samples of one block), the bytes
appended to the output file so far, and whether the final `flush` ran. -/
structure WriterState where
  running : Bool
  totalWritten : ℕ
  droppedBlocks : ℕ
  freeBlocks : ℕ
  writeQueue : List (List Sample)
  fileData : List Sample
  flushed : Bool
  deriving Repr, DecidableEq

/-- `AsyncFileWriter::AsyncFileWriter` (iq_recorder.cpp lines 57-75):
pre-allocates `MAX_QUEUE_SIZE` free blocks and starts running. -/
def mkWriter : WriterState :=
  { running := true, totalWritten := 0, droppedBlocks := 0,
    freeBlocks := MAX_QUEUE_SIZE, writeQueue := [], fileData := [],
    flushed := false }

/-- The `while (written < count && running_)` loop of
`AsyncFileWriter::write` (iq_recorder.cpp lines 91-131), with `data` the
still-uncopied suffix of the input.  Each pass pulls one free block; an
empty pool bumps `dropped_blocks_` once and returns early; otherwise
`min(count - written, BLOCK_SIZE)` samples are copied into the block and
the block is enqueued.  Terminates because each pass consumes a free
block. -/
def writeAux (s : WriterState) (data : List Sample) (written : ℕ) :
    ℕ × WriterState :=
  if data.isEmpty || !s.running then
    (written, s)
  else if hf : s.freeBlocks = 0 then
    (written, { s with droppedBlocks := s.droppedBlocks + 1 })
  else
    let chunk := data.take BLOCK_SIZE
    writeAux
      { s with
        freeBlocks := s.freeBlocks - 1
        writeQueue := s.writeQueue ++ [chunk] }
      (data.drop BLOCK_SIZE) (written + chunk.length)
  termination_by s.freeBlocks
  decreasing_by omega

/-- `AsyncFileWriter::write` (iq_recorder.cpp lines 91-131): returns the
number of samples actually queued together with the successor state. -/
def write (s : WriterState) (data : List Sample) : ℕ × WriterState :=
  writeAux s data 0

/-- The tail of `AsyncFileWriter::writer_loop` (iq_recorder.cpp lines
147-182) once `running_` is false: with the stop flag down the
condition-variable wait falls through immediately, so the loop dequeues one
block per pass, appends its valid samples to the file (skipping empty
blocks), returns the block to the free pool, and on an empty queue exits
and flushes the file. -/
def drainGo : List (List Sample) → WriterState → WriterState
  | [], s => { s with flushed := true }
  | b :: rest, s =>
      drainGo rest
        { s with
          fileData := if b.length > 0 then s.fileData ++ b else s.fileData
          totalWritten := if b.length > 0 then s.totalWritten + b.length
            else s.totalWritten
          freeBlocks := s.freeBlocks + 1 }

/-- `AsyncFileWriter::~AsyncFileWriter` (iq_recorder.cpp lines 77-87):
clear `running_`, wake the writer thread, and join it, i.e. run the
writer loop to completion over the pending queue. -/
def stopWriter (s : WriterState) : WriterState :=
  drainGo s.writeQueue { s with running := false, writeQueue := [] }

/-! ## Window/FFT engine (freq_scanner.cpp and sdr_streamer.cpp)

The FFT is an FFTW plan execution — an external library call — and enters
as a parameter `fft`; `std::log10` enters as a parameter `L`.  `EPS` is
the `1e-20` additive floor. -/

/-- The `1e-20` floor added before taking the logarithm. -/
def EPS : ℚ := 1 / 10 ^ 20

/-- Fill of `fft_in` (freq_scanner.cpp lines 110-113, sdr_streamer.cpp
lines 643-646): pointwise product of the samples with the real window. -/
def applyWindow (samples : List Sample) (window : List ℚ) : List Sample :=
  List.zipWith (fun s w => (s.1 * w, s.2 * w)) samples window

/-- `window_coherent_gain` (freq_scanner.cpp lines 81-87): mean of the
window coefficients. -/
def window_coherent_gain (window : List ℚ) : ℚ :=
  window.sum / window.length

/-- The `RECTANGULAR` branch of `generate_window` (freq_scanner.cpp lines
53-55): all coefficients 1.  (The `HANN` and `BLACKMAN_HARRIS` branches
evaluate cosines and have no exact rational form; windows enter the
functions below as explicit lists, mirroring the C signatures.) -/
def generate_window_rectangular (size : ℕ) : List ℚ :=
  List.replicate size 1

/-- The per-bin dB values computed by the loop of `compute_power_spectrum`
(freq_scanner.cpp lines 124-145): bin `i` reads `fft_out[i]` — no FFT
shift — takes `power = |X_i|^2 / N^2`, multiplies by the window correction
`1/coherent_gain^2`, and converts via `10 * log10(power + 1e-20)`. -/
def scanner_bins (L : ℚ → ℚ) (X : List Sample) (N : ℕ) (coherent_gain : ℚ) :
    List ℚ :=
  (List.range N).map (fun i =>
    let x := X.getD i 0
    let power := (x.1 * x.1 + x.2 * x.2) / ((N : ℚ) * N) *
      (1 / (coherent_gain * coherent_gain))
    10 * L (power + EPS))

/-- `compute_power_spectrum` as a whole (freq_scanner.cpp lines 100-151)
up to the FFT call: window the samples, run the (externally supplied)
FFT, and return the per-bin dB values. -/
def scanner_engine (L : ℚ → ℚ) (fft : List Sample → List Sample)
    (samples : List Sample) (window : List ℚ) (N : ℕ) (coherent_gain : ℚ) :
    List ℚ :=
  scanner_bins L (fft (applyWindow samples window)) N coherent_gain

/-- The per-channel power-spectrum loop of sdr_streamer.cpp lines 641-667:
bin `i` reads `fft_out[(i + N/2) % N]` — the circular FFT shift — takes
`power = |X_j|^2 / N^2` with no window correction, and converts via
`10 * log10(power + 1e-20)`. -/
def streamer_bins (L : ℚ → ℚ) (X : List Sample) (N : ℕ) : List ℚ :=
  (List.range N).map (fun i =>
    let j := (i + N / 2) % N
    let x := X.getD j 0
    let power := (x.1 * x.1 + x.2 * x.2) / ((N : ℚ) * N)
    10 * L (power + EPS))

/-- The streamer's engine up to the FFT call (sdr_streamer.cpp lines
641-667): window, external FFT, shifted uncorrected dB bins. -/
def streamer_engine (L : ℚ → ℚ) (fft : List Sample → List Sample)
    (samples : List Sample) (window : List ℚ) (N : ℕ) : List ℚ :=
  streamer_bins L (fft (applyWindow samples window)) N

/-- Modelled from the spec (claim C4, spec §4.1): each output bin is
`10·log10(power + 1e-20)` with `power = |X|^2/N^2` corrected by
`1/coherent_gain^2`, and the output is circularly shifted so bin 0 is the
most negative frequency offset.  Kept separate from the two source-derived
engines above so the claim can be compared against each. -/
def specClaim_bins (L : ℚ → ℚ) (X : List Sample) (N : ℕ)
    (coherent_gain : ℚ) : List ℚ :=
  (List.range N).map (fun i =>
    let j := (i + N / 2) % N
    let x := X.getD j 0
    let power := (x.1 * x.1 + x.2 * x.2) / ((N : ℚ) * N) *
      (1 / (coherent_gain * coherent_gain))
    10 * L (power + EPS))

/-- Modelled from the spec: the full claimed engine — window, FFT, then
`specClaim_bins`. -/
def specClaim_engine (L : ℚ → ℚ) (fft : List Sample → List Sample)
    (samples : List Sample) (window : List ℚ) (N : ℕ) : List ℚ :=
  specClaim_bins L (fft (applyWindow samples window)) N
    (window_coherent_gain window)

/-- The circular FFT shift as a standalone list operation: element `i` of
the result is element `(i + N/2) % N` of the input. -/
def fftshift (N : ℕ) (l : List ℚ) : List ℚ :=
  (List.range N).map (fun i => l.getD ((i + N / 2) % N) 0)

/-- `output_binary_fft`'s header (sdr_streamer.cpp lines 81-92): the packed
binary frame header written to stdout. -/
structure BinaryFFTHeader where
  magic : ℕ
  frame_number : ℕ
  timestamp : ℚ
  center_freq : ℚ
  sample_rate : ℚ
  fft_size : ℕ
  flags : ℕ
  peak_bin : ℤ
  peak_power : ℚ
  deriving Repr, DecidableEq

/-- The header construction in `output_binary_fft` (sdr_streamer.cpp lines
341-350); the two `fwrite` calls then emit it followed by the spectrum. -/
def mkBinaryFFTHeader (frame_num : ℕ) (timestamp freq rate : ℚ)
    (fft_size : ℕ) (peak_bin : ℤ) (peak_power : ℚ) (gps_lock : Bool) :
    BinaryFFTHeader :=
  { magic := 0x46465431
    frame_number := frame_num
    timestamp := timestamp
    center_freq := freq
    sample_rate := rate
    fft_size := fft_size
    flags := if gps_lock then 0x0001 else 0x0000
    peak_bin := peak_bin
    peak_power := peak_power }

/-! ## General lemmas about the embedded operations -/

/-- `applyOps` moves `write_idx` forward by exactly the number of
publishes in the sequence. -/
theorem applyOps_write_idx (ops : List ProducerOp) (s : ProducerState) :
    (applyOps s ops).region.header.write_idx
      = s.region.header.write_idx + publishCount ops := by
  induction ops generalizing s with
  | nil => rfl
  | cons op rest ih =>
      cases op with
      | publishOp n t c sp nc fs pb pp g =>
          simp only [applyOps, applyOp, publishCount, ih, publish_multi]
          omega
      | setSampleRateOp r =>
          simp only [applyOps, applyOp, publishCount, ih, set_sample_rate]

/-- Every slot's `flags` word is at most 1. -/
def flagsBounded (s : ProducerState) : Prop :=
  ∀ sl ∈ s.region.slots, sl.hdr.flags ≤ 1

/-- One producer operation preserves `flagsBounded`. -/
theorem flagsBounded_applyOp (s : ProducerState) (op : ProducerOp)
    (h : flagsBounded s) : flagsBounded (applyOp s op) := by
  cases op with
  | publishOp n t c sp nc fs pb pp g =>
      intro sl hsl
      rcases List.mem_or_eq_of_mem_set hsl with hmem | rfl
      · exact h sl hmem
      · cases g <;> simp [filledSlot]
  | setSampleRateOp r => exact h

/-- A whole operation sequence preserves `flagsBounded`. -/
theorem flagsBounded_applyOps (ops : List ProducerOp) (s : ProducerState)
    (h : flagsBounded s) : flagsBounded (applyOps s ops) := by
  induction ops generalizing s with
  | nil => exact h
  | cons op rest ih => exact ih _ (flagsBounded_applyOp s op h)

/-- A freshly created producer region has all-zero slot flags. -/
theorem flagsBounded_mkProducer (R F C : ℕ) : flagsBounded (mkProducer R F C) := by
  intro sl hsl
  rcases (List.mem_replicate.1 hsl) with ⟨-, rfl⟩
  simp [zeroSlot]

/-- The loop of `AsyncFileWriter::write`, specified: it queues an initial
segment of the input, returns its length, and bumps `dropped_blocks_` by
exactly one iff it ran out of free blocks before the input ran out. -/
theorem writeAux_spec (s : WriterState) (data : List Sample) (written : ℕ)
    (hrun : s.running = true) :
    written ≤ (writeAux s data written).1 ∧
    (writeAux s data written).1 - written ≤ data.length ∧
    (writeAux s data written).2.writeQueue.flatten
      = s.writeQueue.flatten ++ data.take ((writeAux s data written).1 - written) ∧
    ((writeAux s data written).1 - written < data.length →
      (writeAux s data written).2.droppedBlocks = s.droppedBlocks + 1) ∧
    ((writeAux s data written).1 - written = data.length →
      (writeAux s data written).2.droppedBlocks = s.droppedBlocks) ∧
    (writeAux s data written).2.running = true := by
  induction s, data, written using writeAux.induct with
  | case1 s data written hguard =>
      rw [writeAux, if_pos hguard]
      have hcase : data.isEmpty = true ∨ s.running = false := by
        simpa using hguard
      rcases hcase with hemp | hnr
      · rcases List.isEmpty_iff.1 hemp with rfl
        simp [hrun]
      · rw [hrun] at hnr; simp at hnr
  | case2 s data written hguard hfree =>
      rw [writeAux, if_neg (by simp [hguard]), dif_pos hfree]
      have hne : data ≠ [] := by
        intro hd
        exact hguard (by simp [hd])
      have hlen : 0 < data.length := List.length_pos.2 hne
      refine ⟨le_refl _, by omega, by simp, fun _ => rfl, fun h0 => ?_, hrun⟩
      omega
  | case3 s data written hguard hfree chunk ih =>
      specialize ih hrun
      rw [writeAux, if_neg (by simp [hguard]), dif_neg hfree]
      set res := writeAux
        { s with
          freeBlocks := s.freeBlocks - 1
          writeQueue := s.writeQueue ++ [data.take BLOCK_SIZE] }
        (data.drop BLOCK_SIZE) (written + (data.take BLOCK_SIZE).length) with hres
      obtain ⟨ih1, ih2, ih3, ih4, ih5, ih6⟩ := ih
      have hchunk : chunk = List.take BLOCK_SIZE data := rfl
      rw [hchunk] at ih1 ih2 ih3 ih4 ih5
      have htk : (data.take BLOCK_SIZE).length = min BLOCK_SIZE data.length :=
        List.length_take _ _
      have hdp : (data.drop BLOCK_SIZE).length = data.length - BLOCK_SIZE :=
        List.length_drop _ _
      have hBpos : 0 < BLOCK_SIZE := by norm_num [BLOCK_SIZE]
      refine ⟨by omega, by omega, ?_, ?_, ?_, ih6⟩
      · rw [ih3]
        dsimp only
        simp only [List.flatten_append, List.flatten_cons, List.flatten_nil,
          List.append_nil, List.append_assoc]
        congr 1
        have harith : res.1 - written
            = (data.take BLOCK_SIZE).length + (res.1 - (written + (data.take BLOCK_SIZE).length)) := by
          omega
        rw [harith]
        rcases le_or_lt BLOCK_SIZE data.length with hle | hlt
        · have : (data.take BLOCK_SIZE).length = BLOCK_SIZE := by omega
          rw [this, List.take_add]
        · have h0 : res.1 - (written + (data.take BLOCK_SIZE).length) = 0 := by omega
          have hfull : (data.take BLOCK_SIZE).length = data.length := by omega
          rw [h0, Nat.add_zero, hfull, List.take_length,
            List.take_of_length_le (le_of_lt hlt)]
          simp
      · intro hlt
        exact ih4 (by omega)
      · intro heq
        exact ih5 (by omega)

/-- `AsyncFileWriter::write` on a state whose free pool is already empty:
nothing is queued, `dropped_blocks_` goes up by exactly one. -/
theorem writeAux_no_free (s : WriterState) (data : List Sample)
    (hfree : s.freeBlocks = 0) (hrun : s.running = true) (hne : data ≠ []) :
    writeAux s data 0 = (0, { s with droppedBlocks := s.droppedBlocks + 1 }) := by
  rw [writeAux, if_neg (by simp [hne, hrun]), dif_pos hfree]

/-- The writer-thread drain loop, specified: it appends the concatenation
of the queued blocks to the file, counts their samples, recycles each
block, and flushes. -/
theorem drainGo_spec (q : List (List Sample)) (s : WriterState) :
    (drainGo q s).fileData = s.fileData ++ q.flatten ∧
    (drainGo q s).totalWritten = s.totalWritten + q.flatten.length ∧
    (drainGo q s).flushed = true ∧
    (drainGo q s).writeQueue = s.writeQueue ∧
    (drainGo q s).freeBlocks = s.freeBlocks + q.length := by
  induction q generalizing s with
  | nil => simp [drainGo]
  | cons b rest ih =>
      have hstep : drainGo (b :: rest) s
          = drainGo rest { s with
              fileData := if b.length > 0 then s.fileData ++ b else s.fileData
              totalWritten := if b.length > 0 then s.totalWritten + b.length
                else s.totalWritten
              freeBlocks := s.freeBlocks + 1 } := rfl
      rw [hstep]
      obtain ⟨ih1, ih2, ih3, ih4, ih5⟩ := ih ({ s with
        fileData := if b.length > 0 then s.fileData ++ b else s.fileData
        totalWritten := if b.length > 0 then s.totalWritten + b.length
          else s.totalWritten
        freeBlocks := s.freeBlocks + 1 } : WriterState)
      refine ⟨?_, ?_, ih3, ih4, ?_⟩
      · rw [ih1]
        rcases Nat.eq_zero_or_pos b.length with hb | hb
        · rcases List.length_eq_zero.1 hb with rfl
          simp
        · simp [Nat.pos_iff_ne_zero.1 hb, List.append_assoc, hb]
      · rw [ih2]
        rcases Nat.eq_zero_or_pos b.length with hb | hb
        · rcases List.length_eq_zero.1 hb with rfl
          simp
        · simp only [List.flatten_cons, List.length_append, if_pos hb]
          omega
      · rw [ih5]
        simp only [List.length_cons]
        omega

/-! ## The claims -/

/-- Claim C2 (code_bug evidence): the control server's dispatch switch has
no `SET_SAMPLE_RATE` case, so every set-sample-rate command — whatever its
value, in or out of any range — is answered `success = false` with the
`default:` arm's "Unknown command" message, and neither the hardware state
nor any atomic is touched. -/
theorem set_sample_rate_always_unknown (v : ℚ) (hw : HardwareState)
    (a : AtomicState) :
    handle_command ⟨.SET_SAMPLE_RATE, v⟩ hw a
      = (⟨false, 0, .unknownCommand⟩, hw, a) := rfl

/-- Claim C5: a `SET_FREQUENCY` below the B210 minimum is rejected with
`success = false` and a message carrying the valid bounds, leaving the
hardware state and every atomic (in particular `current_frequency`)
untouched; a `SET_FREQUENCY` at exactly the B210 maximum succeeds. -/
theorem set_frequency_bounds (v : ℚ) (hw : HardwareState) (a : AtomicState)
    (hv : v < B210_MIN_FREQ) :
    handle_command ⟨.SET_FREQUENCY, v⟩ hw a
      = (⟨false, 0, .freqOutOfRange B210_MIN_FREQ B210_MAX_FREQ⟩, hw, a) ∧
    (handle_command ⟨.SET_FREQUENCY, B210_MAX_FREQ⟩ hw a).1.success = true := by
  constructor
  · rw [handle_command]
    exact if_neg (fun h => absurd h.1 (not_le.2 hv))
  · rw [handle_command]
    rw [if_pos ⟨by norm_num [B210_MIN_FREQ, B210_MAX_FREQ], le_refl _⟩]

/-- Concrete hardware state used to instantiate the control-plane
theorems: the daemon's default frequency/gain/rate/bandwidth. -/
def exampleHw : HardwareState := ⟨915000000, 50, 10000000, 10000000⟩

/-- Concrete atomic state matching `exampleHw`. -/
def exampleAtomics : AtomicState := ⟨false, 915000000, 50, 10000000, false⟩

/-- Witness for `set_frequency_bounds` at 1 Hz below the minimum. -/
theorem set_frequency_bounds_witness :
    B210_MIN_FREQ - 1 < B210_MIN_FREQ ∧
    (handle_command ⟨.SET_FREQUENCY, B210_MIN_FREQ - 1⟩ exampleHw exampleAtomics
      = (⟨false, 0, .freqOutOfRange B210_MIN_FREQ B210_MAX_FREQ⟩,
         exampleHw, exampleAtomics) ∧
     (handle_command ⟨.SET_FREQUENCY, B210_MAX_FREQ⟩ exampleHw
        exampleAtomics).1.success = true) :=
  ⟨sub_lt_self _ one_pos,
   set_frequency_bounds (B210_MIN_FREQ - 1) exampleHw exampleAtomics
     (sub_lt_self _ one_pos)⟩

/-- A mapped region whose header carries the right magic but a wrong
(future) protocol version. -/
def wrongVersionRegion : SharedRegion :=
  { header := { magic := SHM_MAGIC, version := 2, ring_size := 4,
                fft_size := 1, channel_count := 1, frame_size := 52,
                write_idx := 0, read_idx := 0, sample_rate := 0,
                gps_locked := 0, streaming := 1 }
    slots := [] }

/-- Claim C6 counterexample: `open_consumer` accepts a region whose
`version` field disagrees with `SHM_VERSION` — only the magic is
validated, so a version mismatch does not make the consumer fail. -/
theorem open_consumer_ignores_version :
    wrongVersionRegion.header.version ≠ SHM_VERSION ∧
    open_consumer wrongVersionRegion = .ok ⟨0⟩ :=
  ⟨by decide, rfl⟩

/-- Claim C6 amended: `open_consumer` validates the magic field only — a
magic mismatch fails immediately (before any frame data is interpreted,
since the rejecting branch never touches the slots), a matching magic is
accepted regardless of the version field, and the accepted consumer's
cursor starts at the producer's current `write_idx`. -/
theorem open_consumer_checks_magic_only (r1 r2 : SharedRegion)
    (h1 : r1.header.magic ≠ SHM_MAGIC) (h2 : r2.header.magic = SHM_MAGIC) :
    open_consumer r1 = .error "Invalid shared memory magic" ∧
    open_consumer r2 = .ok ⟨r2.header.write_idx⟩ := by
  constructor
  · rw [open_consumer, if_pos h1]
  · rw [open_consumer, if_neg (by simp [h2])]

/-- A region with a corrupted magic word. -/
def wrongMagicRegion : SharedRegion :=
  { wrongVersionRegion with
    header := { wrongVersionRegion.header with magic := 0, version := SHM_VERSION } }

/-- Witness for `open_consumer_checks_magic_only`: a wrong-magic region is
rejected, a right-magic (wrong-version) region is accepted at cursor 0. -/
theorem open_consumer_checks_magic_only_witness :
    wrongMagicRegion.header.magic ≠ SHM_MAGIC ∧
    wrongVersionRegion.header.magic = SHM_MAGIC ∧
    (open_consumer wrongMagicRegion = .error "Invalid shared memory magic" ∧
     open_consumer wrongVersionRegion
       = .ok ⟨wrongVersionRegion.header.write_idx⟩) :=
  ⟨by decide, by decide,
   open_consumer_checks_magic_only wrongMagicRegion wrongVersionRegion
     (by decide) (by decide)⟩

/-- Claim C7: a publish reads `write_idx`, rewrites exactly the slot
`write_idx mod ring_size_` (every other slot is untouched and the
targeted slot, when it exists, now carries the published frame number),
and stores `write_idx + 1`; `set_sample_rate` — the only other mutation a
live producer performs — leaves `write_idx` alone, so over any operation
sequence `write_idx` grows by exactly the number of publishes. -/
theorem publish_write_index_discipline (s : ProducerState) (n : ℕ)
    (t c : ℚ) (sp : List (List ℚ)) (nc fs : ℕ) (pb : List ℤ)
    (pp : List ℚ) (g : Bool) (r : ℚ) (ops : List ProducerOp) :
    (publish_multi s n t c sp nc fs pb pp g).region.header.write_idx
      = s.region.header.write_idx + 1 ∧
    (∀ j, j ≠ s.region.header.write_idx % s.ring_size_ →
      (publish_multi s n t c sp nc fs pb pp g).region.slots[j]?
        = s.region.slots[j]?) ∧
    ((publish_multi s n t c sp nc fs pb pp g).region.slots[
        s.region.header.write_idx % s.ring_size_]?).map
          (fun sl => sl.hdr.frame_number)
      = (s.region.slots[s.region.header.write_idx % s.ring_size_]?).map
          (fun _ => n) ∧
    (set_sample_rate s r).region.header.write_idx
      = s.region.header.write_idx ∧
    (applyOps s ops).region.header.write_idx
      = s.region.header.write_idx + publishCount ops := by
  refine ⟨rfl, ?_, ?_, rfl, applyOps_write_idx ops s⟩
  · intro j hj
    exact List.getElem?_set_ne (fun h => hj h.symm)
  · show ((s.region.slots.set _ _)[s.region.header.write_idx % s.ring_size_]?).map _ = _
    rw [List.getElem?_set_self']
    cases s.region.slots[s.region.header.write_idx % s.ring_size_]? <;>
      simp [filledSlot]

/-- Witness for `publish_write_index_discipline` on a fresh 4-slot ring:
publishing frame 7 bumps `write_idx` from 0 to 1, leaves slot 1 as it
was, rewrites slot 0 with frame number 7, and a mixed operation sequence
advances `write_idx` by its publish count. -/
theorem publish_write_index_discipline_witness :
    (1 : ℕ) ≠ (mkProducer 4 1 1).region.header.write_idx % (mkProducer 4 1 1).ring_size_ ∧
    ((publish_multi (mkProducer 4 1 1) 7 0 0 [[5]] 1 1 [0] [0] false).region.header.write_idx
        = (mkProducer 4 1 1).region.header.write_idx + 1 ∧
     (publish_multi (mkProducer 4 1 1) 7 0 0 [[5]] 1 1 [0] [0] false).region.slots[1]?
        = (mkProducer 4 1 1).region.slots[1]? ∧
     ((publish_multi (mkProducer 4 1 1) 7 0 0 [[5]] 1 1 [0] [0] false).region.slots[
         (mkProducer 4 1 1).region.header.write_idx % (mkProducer 4 1 1).ring_size_]?).map
           (fun sl => sl.hdr.frame_number)
        = ((mkProducer 4 1 1).region.slots[
            (mkProducer 4 1 1).region.header.write_idx % (mkProducer 4 1 1).ring_size_]?).map
            (fun _ => 7) ∧
     (set_sample_rate (mkProducer 4 1 1) 5).region.header.write_idx
        = (mkProducer 4 1 1).region.header.write_idx ∧
     (applyOps (mkProducer 4 1 1)
        [.setSampleRateOp 5, .publishOp 7 0 0 [[5]] 1 1 [0] [0] false]).region.header.write_idx
        = (mkProducer 4 1 1).region.header.write_idx
            + publishCount [.setSampleRateOp 5, .publishOp 7 0 0 [[5]] 1 1 [0] [0] false]) := by
  have h := publish_write_index_discipline (mkProducer 4 1 1) 7 0 0 [[5]] 1 1
    [0] [0] false 5 [.setSampleRateOp 5, .publishOp 7 0 0 [[5]] 1 1 [0] [0] false]
  exact ⟨by decide, h.1, h.2.1 1 (by decide), h.2.2.1, h.2.2.2.1, h.2.2.2.2⟩

/-- Claim C8: stopping the async writer (clear the run flag, wake and join
the writer thread) first appends every still-queued block to the file in
order, counts the written samples, recycles every block to the free pool,
then flushes; the pending queue ends empty, so no already-queued sample is
lost. -/
theorem stop_writer_drains_queue (s : WriterState) :
    (stopWriter s).fileData = s.fileData ++ s.writeQueue.flatten ∧
    (stopWriter s).totalWritten = s.totalWritten + s.writeQueue.flatten.length ∧
    (stopWriter s).writeQueue = [] ∧
    (stopWriter s).flushed = true ∧
    (stopWriter s).freeBlocks = s.freeBlocks + s.writeQueue.length := by
  obtain ⟨h1, h2, h3, h4, h5⟩ := drainGo_spec s.writeQueue
    ({ s with running := false, writeQueue := [] } : WriterState)
  exact ⟨h1, h2, h4, h3, h5⟩

/-- Ten frames (numbers 0..9) published into a 4-slot, 1-bin,
single-channel ring: the `W = 10 > R = 4` scenario of the spec. -/
def tenFrameRing : ProducerState :=
  (List.range 10).foldl
    (fun s i => publish s i 0 0 [(i : ℚ)] 1 0 0 false)
    (mkProducer 4 1 1)

/-- Claim C1 counterexample: after 10 publishes into a 4-slot ring, a
consumer constructed afterwards starts its cursor at the producer's
`write_idx` (= 10), so its first `try_read` returns "no data" — it does
not read frame `W - 1 = 9`, and no drop-gap is observed. -/
theorem consumer_attach_after_reads_nothing :
    tenFrameRing.region.header.write_idx = 10 ∧
    tenFrameRing.region.header.ring_size = 4 ∧
    open_consumer tenFrameRing.region = .ok ⟨10⟩ ∧
    (try_read tenFrameRing.region 10).1 = none :=
  ⟨rfl, rfl, rfl, rfl⟩

/-- Claim C1 amended: `try_read` returns "no data" whenever the cursor is
at (or past) `write_idx`; with the cursor behind by at most `ring_size` it
returns the slot `cursor mod ring_size` and advances the cursor by one;
behind by more than `ring_size` it silently jumps the cursor to
`write_idx - 1` and returns that newest frame (the skipped gap is not
reported anywhere); and a consumer opened on a region starts at the
producer's current `write_idx`, so its first read after attaching finds no
data. -/
theorem try_read_cursor_semantics (r : SharedRegion) (ca cb cc : ℕ)
    (ha : r.header.write_idx ≤ ca)
    (hb1 : cb < r.header.write_idx)
    (hb2 : r.header.write_idx - cb ≤ r.header.ring_size)
    (hc1 : cc < r.header.write_idx)
    (hc2 : r.header.ring_size < r.header.write_idx - cc) :
    try_read r ca = (none, ca) ∧
    try_read r cb = (r.slots[cb % r.header.ring_size]?, cb + 1) ∧
    try_read r cc
      = (r.slots[(r.header.write_idx - 1) % r.header.ring_size]?,
         r.header.write_idx) ∧
    (∀ c, open_consumer r = .ok c → (try_read r c.last_read_idx).1 = none) := by
  refine ⟨?_, ?_, ?_, ?_⟩
  · rw [try_read, tryReadFrom, if_pos ha]
  · rw [try_read, tryReadFrom, if_neg (by omega), if_neg (by omega)]
  · rw [try_read, tryReadFrom, if_neg (by omega), if_pos hc2]
    show (r.slots[(r.header.write_idx - 1) % r.header.ring_size]?,
      r.header.write_idx - 1 + 1) = _
    have hw : r.header.write_idx - 1 + 1 = r.header.write_idx := by omega
    rw [hw]
  · intro c hc
    rw [open_consumer] at hc
    by_cases hm : r.header.magic ≠ SHM_MAGIC
    · rw [if_pos hm] at hc
      cases hc
    · rw [if_neg hm] at hc
      injection hc with hc
      subst hc
      rw [try_read, tryReadFrom, if_pos (le_refl _)]

/-- Witness for `try_read_cursor_semantics` on the concrete 10-publish
4-slot ring, at cursors 10 (caught up), 9 (one behind) and 0 (overrun). -/
theorem try_read_cursor_semantics_witness :
    tenFrameRing.region.header.write_idx ≤ 10 ∧
    9 < tenFrameRing.region.header.write_idx ∧
    tenFrameRing.region.header.write_idx - 9
      ≤ tenFrameRing.region.header.ring_size ∧
    0 < tenFrameRing.region.header.write_idx ∧
    tenFrameRing.region.header.ring_size
      < tenFrameRing.region.header.write_idx - 0 ∧
    try_read tenFrameRing.region 10 = (none, 10) ∧
    try_read tenFrameRing.region 9
      = (tenFrameRing.region.slots[9 % tenFrameRing.region.header.ring_size]?,
         10) ∧
    try_read tenFrameRing.region 0
      = (tenFrameRing.region.slots[
           (tenFrameRing.region.header.write_idx - 1)
             % tenFrameRing.region.header.ring_size]?,
         tenFrameRing.region.header.write_idx) ∧
    (try_read tenFrameRing.region
      (ConsumerState.mk 10).last_read_idx).1 = none := by
  have h := try_read_cursor_semantics tenFrameRing.region 10 9 0
    (by decide) (by decide) (by decide) (by decide) (by decide)
  exact ⟨by decide, by decide, by decide, by decide, by decide,
    h.1, h.2.1, h.2.2.1, h.2.2.2 ⟨10⟩ rfl⟩

/-- One frame (number 0) published into a 2-slot ring: the state in which
a racing consumer performs its `write_idx` acquire load, observing 1. -/
def preRaceRing : ProducerState :=
  publish (mkProducer 2 1 1) 0 0 0 [0] 1 0 0 false

/-- Frames 1 and 2 published after the consumer's counter load and before
its slot copy; frame 2 lands in slot `2 mod 2 = 0`, overwriting frame 0. -/
def postRaceRing : ProducerState :=
  publish (publish preRaceRing 1 0 0 [1] 1 0 0 false) 2 0 0 [2] 1 0 0 false

/-- Claim C9 counterexample: the consumer that loaded `write_idx = 1` at
cursor 0 and then races two publishes (the producer wraps past its slot:
`write_idx` reaches 3 and `3 - 0 > ring_size = 2`) is handed the
overwritten slot — its read returns the frame numbered 2 instead of the
frame 0 it was positioned on, the cursor advances, and no discard or
retry happens: `try_read` never re-checks `write_idx` after the copy. -/
theorem torn_read_delivered :
    preRaceRing.region.header.write_idx = 1 ∧
    postRaceRing.region.header.write_idx = 3 ∧
    preRaceRing.region.header.ring_size = 2 ∧
    (tryReadFrom preRaceRing.region.header.write_idx
        preRaceRing.region.header.ring_size postRaceRing.region.slots 0).2
      = 1 ∧
    ((tryReadFrom preRaceRing.region.header.write_idx
        preRaceRing.region.header.ring_size postRaceRing.region.slots 0).1.map
          (fun sl => sl.hdr.frame_number))
      = some 2 := by
  refine ⟨rfl, rfl, rfl, rfl, ?_⟩
  decide

/-- The two publishes racing the consumer in the torn-read scenario. -/
def racePublishes : List ProducerOp :=
  [.publishOp 1 0 0 [[1]] 1 1 [0] [0] false,
   .publishOp 2 0 0 [[2]] 1 1 [0] [0] false]

/-- Claim C9 amended: `try_read` loads `write_idx` exactly once, before
touching the slot; whatever sequence of publishes lands between that load
and the slot access, the read delivers the slot's current (possibly
overwritten) contents and advances the cursor — there is no second look at
`write_idx`, no discard, and no retry. -/
theorem try_read_no_recheck (s : ProducerState) (ops : List ProducerOp)
    (c : ℕ) (hc : c < s.region.header.write_idx)
    (hle : s.region.header.write_idx - c ≤ s.region.header.ring_size) :
    tryReadFrom s.region.header.write_idx s.region.header.ring_size
        (applyOps s ops).region.slots c
      = ((applyOps s ops).region.slots[c % s.region.header.ring_size]?,
         c + 1) := by
  rw [tryReadFrom, if_neg (by omega), if_neg (by omega)]

/-- Witness for `try_read_no_recheck` in the concrete wrap-around race. -/
theorem try_read_no_recheck_witness :
    0 < preRaceRing.region.header.write_idx ∧
    preRaceRing.region.header.write_idx - 0
      ≤ preRaceRing.region.header.ring_size ∧
    tryReadFrom preRaceRing.region.header.write_idx
        preRaceRing.region.header.ring_size
        (applyOps preRaceRing racePublishes).region.slots 0
      = ((applyOps preRaceRing racePublishes).region.slots[
          0 % preRaceRing.region.header.ring_size]?, 1) := by
  have h := try_read_no_recheck preRaceRing racePublishes 0
    (by decide) (by decide)
  exact ⟨by decide, by decide, h⟩

/-- Claim C10: a publish writes the slot's `flags` word as exactly
`0x0001` when GPS is locked and `0x0000` otherwise; every slot of a ring
driven from creation by any operation sequence has `flags ≤ 1` with the
overflow bit (bit 1) clear; and the stdout binary FFT header's `flags` is
built the same way, overflow bit never set. -/
theorem flags_gps_bit_only (s : ProducerState) (n : ℕ) (t c : ℚ)
    (sp : List (List ℚ)) (nc fs : ℕ) (pb : List ℤ) (pp : List ℚ) (g : Bool)
    (R F C : ℕ) (ops : List ProducerOp) (fn : ℕ) (ts fr rt : ℚ)
    (bsz : ℕ) (pbin : ℤ) (ppow : ℚ) :
    ((publish_multi s n t c sp nc fs pb pp g).region.slots[
        s.region.header.write_idx % s.ring_size_]?).map (fun sl => sl.hdr.flags)
      = (s.region.slots[s.region.header.write_idx % s.ring_size_]?).map
          (fun _ => if g then 0x0001 else 0x0000) ∧
    (∀ sl ∈ (applyOps (mkProducer R F C) ops).region.slots,
        sl.hdr.flags ≤ 1 ∧ Nat.testBit sl.hdr.flags 1 = false) ∧
    (mkBinaryFFTHeader fn ts fr rt bsz pbin ppow g).flags
      = (if g then 0x0001 else 0x0000) ∧
    Nat.testBit (mkBinaryFFTHeader fn ts fr rt bsz pbin ppow g).flags 1
      = false := by
  refine ⟨?_, ?_, rfl, ?_⟩
  · show ((s.region.slots.set _ _)[_]?).map _ = _
    rw [List.getElem?_set_self']
    cases s.region.slots[s.region.header.write_idx % s.ring_size_]? <;>
      simp [filledSlot]
  · intro sl hsl
    have hb := flagsBounded_applyOps ops _ (flagsBounded_mkProducer R F C) sl hsl
    refine ⟨hb, ?_⟩
    have h01 : sl.hdr.flags = 0 ∨ sl.hdr.flags = 1 := by omega
    rcases h01 with h | h <;> rw [h] <;> decide
  · show Nat.testBit (if g then 0x0001 else 0x0000) 1 = false
    cases g <;> decide

/-- An operation run used to instantiate the flags invariant. -/
def flagsDemoOps : List ProducerOp :=
  [.publishOp 0 0 0 [[0]] 1 1 [0] [0] true,
   .setSampleRateOp 5,
   .publishOp 1 0 0 [[1]] 1 1 [0] [0] false]

/-- Witness for `flags_gps_bit_only`: publishing with GPS locked writes
flags `0x0001` into slot 0 of a fresh single-slot ring, the slot left by
`flagsDemoOps` keeps the overflow bit clear, and the binary stdout header
behaves the same. -/
theorem flags_gps_bit_only_witness :
    ((publish_multi (mkProducer 1 1 1) 0 0 0 [[0]] 1 1 [0] [0]
        true).region.slots[
          (mkProducer 1 1 1).region.header.write_idx
            % (mkProducer 1 1 1).ring_size_]?).map (fun sl => sl.hdr.flags)
      = ((mkProducer 1 1 1).region.slots[
          (mkProducer 1 1 1).region.header.write_idx
            % (mkProducer 1 1 1).ring_size_]?).map (fun _ => 0x0001) ∧
    (((applyOps (mkProducer 1 1 1) flagsDemoOps).region.slots.getD 0
        (zeroSlot 1 1)).hdr.flags ≤ 1 ∧
      Nat.testBit ((applyOps (mkProducer 1 1 1) flagsDemoOps).region.slots.getD 0
        (zeroSlot 1 1)).hdr.flags 1 = false) ∧
    (mkBinaryFFTHeader 3 0 0 0 1 0 0 true).flags = 0x0001 ∧
    Nat.testBit (mkBinaryFFTHeader 3 0 0 0 1 0 0 true).flags 1 = false := by
  have h := flags_gps_bit_only (mkProducer 1 1 1) 0 0 0 [[0]] 1 1 [0] [0]
    true 1 1 1 flagsDemoOps 3 0 0 0 1 0 0
  exact ⟨h.1, h.2.1 _ (by decide), h.2.2.1, h.2.2.2⟩

/-- A writer whose free pool has been exhausted (the writer thread is
stalled and has recycled nothing). -/
def drainedPoolWriter : WriterState := { mkWriter with freeBlocks := 0 }

/-- Two blocks' worth of zero samples. -/
def twoBlocksOfSamples : List Sample := List.replicate (2 * BLOCK_SIZE) (0, 0)

/-- Claim C3 counterexample: a `write` of `2·BLOCK_SIZE` samples against
an exhausted pool queues nothing (return 0 < count), yet `dropped_blocks`
rises by exactly 1 — not by the 2-block shortfall the claim requires. -/
theorem write_drop_counts_events_not_blocks :
    (write drainedPoolWriter twoBlocksOfSamples).1 = 0 ∧
    (write drainedPoolWriter twoBlocksOfSamples).2.droppedBlocks
      = drainedPoolWriter.droppedBlocks + 1 ∧
    (twoBlocksOfSamples.length
        - (write drainedPoolWriter twoBlocksOfSamples).1) / BLOCK_SIZE = 2 ∧
    drainedPoolWriter.droppedBlocks + 1 ≠ 2 := by
  have hlen : twoBlocksOfSamples.length = 2 * BLOCK_SIZE :=
    List.length_replicate _ _
  have hne : twoBlocksOfSamples ≠ [] := by
    intro h
    rw [h] at hlen
    simp [BLOCK_SIZE] at hlen
  have h := writeAux_no_free drainedPoolWriter twoBlocksOfSamples rfl rfl hne
  rw [write, h]
  refine ⟨rfl, rfl, ?_, by decide⟩
  rw [hlen]
  norm_num [BLOCK_SIZE]

/-- Claim C3 amended: `write` is a plain function of its inputs (it never
waits), its return value is the number of samples actually queued — the
queue grows by exactly the first `write s data` samples of the input, a
value never exceeding the input length — and a running writer returns less
than the input length exactly when the pool ran dry, in which case
`dropped_blocks` rises by exactly 1 (one exhaustion event per call), not by
the shortfall in blocks. -/
theorem write_short_return_semantics (s : WriterState)
    (data : List Sample) (hrun : s.running = true) :
    (write s data).1 ≤ data.length ∧
    (write s data).2.writeQueue.flatten
      = s.writeQueue.flatten ++ data.take (write s data).1 ∧
    ((write s data).1 < data.length →
      (write s data).2.droppedBlocks = s.droppedBlocks + 1) ∧
    ((write s data).1 = data.length →
      (write s data).2.droppedBlocks = s.droppedBlocks) := by
  obtain ⟨h1, h2, h3, h4, h5, h6⟩ := writeAux_spec s data 0 hrun
  rw [write]
  exact ⟨by simpa using h2, by simpa using h3, by simpa using h4,
    by simpa using h5⟩

/-- Witness for `write_short_return_semantics` on a fresh writer and a
2-sample input. -/
theorem write_short_return_semantics_witness :
    mkWriter.running = true ∧
    ((write mkWriter [(1, 2), (3, 4)]).1 ≤ 2 ∧
     (write mkWriter [(1, 2), (3, 4)]).2.writeQueue.flatten
       = mkWriter.writeQueue.flatten
           ++ List.take (write mkWriter [(1, 2), (3, 4)]).1 [(1, 2), (3, 4)] ∧
     ((write mkWriter [(1, 2), (3, 4)]).1 < 2 →
       (write mkWriter [(1, 2), (3, 4)]).2.droppedBlocks
         = mkWriter.droppedBlocks + 1) ∧
     ((write mkWriter [(1, 2), (3, 4)]).1 = 2 →
       (write mkWriter [(1, 2), (3, 4)]).2.droppedBlocks
         = mkWriter.droppedBlocks)) :=
  ⟨rfl, write_short_return_semantics mkWriter [(1, 2), (3, 4)] rfl⟩

/-- Auxiliary: reading position `j < N` out of a map over `List.range N`. -/
theorem getD_map_range (f : ℕ → ℚ) {N j : ℕ} (h : j < N) :
    ((List.range N).map f).getD j 0 = f j := by
  rw [List.getD_eq_getElem?_getD, List.getElem?_map, List.getElem?_range h]
  rfl

/-- Claim C4 counterexample: with the FFT and `log10` instantiated to the
identity (any injective choice separates the same values), the scanner's
engine output differs from the claimed engine on a two-bin rectangular
window input — the scanner never applies the circular shift — and the
streamer's output differs from the claimed output under a window of
coherent gain ½ — the streamer never applies the `1/coherent_gain²`
correction. -/
theorem engine_differs_from_claim :
    scanner_engine id id [(2, 0), (0, 0)] (generate_window_rectangular 2) 2
        (window_coherent_gain (generate_window_rectangular 2))
      ≠ specClaim_engine id id [(2, 0), (0, 0)]
          (generate_window_rectangular 2) 2 ∧
    streamer_engine id id [(2, 0), (0, 0)] [1/2, 1/2] 2
      ≠ specClaim_engine id id [(2, 0), (0, 0)] [1/2, 1/2] 2 := by
  constructor
  · norm_num [scanner_engine, specClaim_engine, scanner_bins, specClaim_bins,
      applyWindow, generate_window_rectangular, window_coherent_gain, EPS,
      List.range_succ]
  · norm_num [streamer_engine, specClaim_engine, streamer_bins, specClaim_bins,
      applyWindow, window_coherent_gain, EPS, List.range_succ]

/-- Claim C4 amended: the claimed per-bin output (`|X|²/N²` corrected by
`1/coherent_gain²`, floored, logged, circularly shifted) is exactly the
circular shift of what the scanner engine actually emits — the scanner
applies the correction but not the shift; and the streamer engine emits
exactly the shifted bins with the correction dropped (coherent gain forced
to 1) — the streamer applies the shift but no correction (its window is
moreover hard-coded to Hann rather than chosen from the three-window
set). -/
theorem engine_shift_and_correction (L : ℚ → ℚ)
    (fft : List Sample → List Sample) (samples : List Sample)
    (window : List ℚ) (N : ℕ) :
    specClaim_engine L fft samples window N
      = fftshift N
          (scanner_engine L fft samples window N (window_coherent_gain window)) ∧
    streamer_engine L fft samples window N
      = fftshift N (scanner_bins L (fft (applyWindow samples window)) N 1) := by
  constructor
  · rw [specClaim_engine, specClaim_bins, scanner_engine, scanner_bins, fftshift]
    apply List.map_congr_left
    intro i hi
    have hiN : i < N := List.mem_range.1 hi
    have hjN : (i + N / 2) % N < N := Nat.mod_lt _ (by omega)
    rw [getD_map_range _ hjN]
  · rw [streamer_engine, streamer_bins, scanner_bins, fftshift]
    apply List.map_congr_left
    intro i hi
    have hiN : i < N := List.mem_range.1 hi
    have hjN : (i + N / 2) % N < N := Nat.mod_lt _ (by omega)
    rw [getD_map_range _ hjN]
    simp

end Sdr
